import Mathlib

/-!
Verification of the silence-cutting audio service (`src/app.py`).

The Python source is shallowly embedded below.  External effects (the
`pydub`/`ffmpeg` codec, the filesystem) are abstracted as function
parameters: an encode attempt either yields an encoded byte size
(`some size` / `Except.ok size`) or raises (`none` / `Except.error msg`).
The control flow of each embedded function mirrors the Python source line
by line.  All definitions come first, followed by the theorems.
-/

namespace SilenceCutter

/-! ## Definitions -/

/-- `MAX_FILE_SIZE = 50 * 1024 * 1024` (app.py line 30): the 50 MiB byte budget. -/
def MAX_FILE_SIZE : Nat := 50 * 1024 * 1024

/-- The candidate bitrate table of `export_mp3_with_size_limit`
(app.py line 77): `bitrates = [256, 192, 160, 128, 96, 64, 32]` kbps. -/
def bitrates : List Nat := [256, 192, 160, 128, 96, 64, 32]

/-- Filesystem/encoder events emitted while the exporter runs:
`encoded b` is one `audio.export(...)` invocation at candidate bitrate `b`
(whether it raises or not), `encodedExtreme` the final 24 kbps fallback
invocation, `deletedTemp b` an `os.unlink` of the temporary artifact for
bitrate `b`, and `renamedToFinal b` the `os.rename` of the accepted artifact. -/
inductive ExportEvent where
  | encoded (bitrate : Nat)
  | encodedExtreme
  | deletedTemp (bitrate : Nat)
  | renamedToFinal (bitrate : Nat)
deriving DecidableEq, Repr

/-- Result of `export_mp3_with_size_limit`: an accepted candidate with its
bitrate and byte size, the unconditional extreme-compression fallback with
its byte size, or the terminal `raise Exception(...)` (app.py line 123). -/
inductive ExportResult where
  | atBitrate (bitrate size : Nat)
  | extreme (size : Nat)
  | failure
deriving DecidableEq, Repr

/-- An encode attempt at bitrate `b` fits: it did not raise and its byte size
is at most the budget (`file_size <= max_size_bytes`, app.py line 94). -/
def fits (encode : Nat → Option Nat) (budget b : Nat) : Bool :=
  match encode b with
  | some s => decide (s ≤ budget)
  | none => false

/-- The `for bitrate in bitrates` loop of `export_mp3_with_size_limit`
(app.py lines 79-107).  `encode b` models `audio.export(..., bitrate=b)`
followed by `os.path.getsize`: `some s` on success with size `s`, `none`
when the export raises.  Returns the accepted `(bitrate, size)` (if any)
together with the trace of encoder/filesystem events, in order. -/
def exportLoop (encode : Nat → Option Nat) (budget : Nat) :
    List Nat → Option (Nat × Nat) × List ExportEvent
  | [] => (none, [])
  | b :: rest =>
    match encode b with
    | some s =>
      if s ≤ budget then
        (some (b, s), [ExportEvent.encoded b, ExportEvent.renamedToFinal b])
      else
        let r := exportLoop encode budget rest
        (r.1, ExportEvent.encoded b :: ExportEvent.deletedTemp b :: r.2)
    | none =>
      let r := exportLoop encode budget rest
      (r.1, ExportEvent.encoded b :: r.2)

/-- `export_mp3_with_size_limit` (app.py lines 72-123).  After the candidate
loop, if nothing was accepted, one extreme-compression encode at 24 kbps is
attempted (`ext`: `some s` on success with byte size `s`, `none` when it
raises, which triggers `raise Exception("Unable to compress audio under 50MB
limit")`). -/
def export_mp3_with_size_limit (encode : Nat → Option Nat) (ext : Option Nat)
    (budget : Nat) : ExportResult × List ExportEvent :=
  let r := exportLoop encode budget bitrates
  match r.1, ext with
  | some (b, s), _ => (ExportResult.atBitrate b s, r.2)
  | none, some s => (ExportResult.extreme s, r.2 ++ [ExportEvent.encodedExtreme])
  | none, none => (ExportResult.failure, r.2 ++ [ExportEvent.encodedExtreme])

/-- Whether an event is one encode invocation (`audio.export` call). -/
def isEncode : ExportEvent → Bool
  | ExportEvent.encoded _ => true
  | ExportEvent.encodedExtreme => true
  | _ => false

/-- Number of encode invocations in a trace. -/
def encodeCount (tr : List ExportEvent) : Nat := (tr.filter isEncode).length

/-- Concrete encoder for the C1 witness: every bitrate encodes successfully
at 300000 bytes per kbps, so 256 and 192 kbps exceed the 50 MiB budget and
160 kbps (48000000 bytes) is the first fitting candidate. -/
def c1Encode : Nat → Option Nat := fun b => some (b * 300000)

/-! ### Silence segmentation and clip assembly (`cut_silence`, app.py 32-70)

`cut_silence` decodes the file, calls `pydub.silence.split_on_silence`, and
concatenates the returned chunks; if the chunk list is empty it returns the
decoded audio unchanged.  A Track is modelled as a list of samples, one per
millisecond (pydub slices `AudioSegment`s by millisecond index). -/

/-- A decoded audio track: one sample value per millisecond. -/
abbrev Track := List Int

/-- Python slice `audio[start:end]` on a track with `start`, `end : Nat`
(lower bound already clamped at 0 by Nat subtraction at the call sites). -/
def slice (audio : Track) (s e : Nat) : Track := (audio.drop s).take (e - s)

/-- Modelled from the spec: the Silence Segmenter's padding step and the Clip
Assembler's chunk extraction (`pydub.silence.split_on_silence`), which is
library code not part of this repository's sources.  Per spec sections 4.2
and 4.3, each NonSilentRange `(start, stop)` is expanded by `keep_silence` on
each side, clamped to the track bounds, and the samples of each PaddedRange
are extracted independently, in range order, without merging overlapping
ranges.  The detected NonSilentRange list is a parameter. -/
def split_on_silence (audio : Track) (keep : Nat) (ranges : List (Nat × Nat)) :
    List Track :=
  ranges.map fun r => slice audio (r.1 - keep) (min (r.2 + keep) audio.length)

/-- `cut_silence` (app.py lines 44-67), parametric in the chunk list produced
by `split_on_silence`: `if not chunks: return audio` (lines 52-54), otherwise
`result = AudioSegment.empty(); for chunk in chunks: result += chunk`
(lines 62-67). -/
def cut_silence (audio : Track) (chunks : List Track) : Track :=
  if chunks.isEmpty then audio else chunks.foldl (fun acc c => acc ++ c) []

/-- Concrete track for the C6 witness: ten samples, ranges `(1,3)` and
`(4,6)`, `keep_silence = 2`, so the padded ranges `[0,5)` and `[2,8)`
overlap on `[2,5)`. -/
def c6Audio : Track := [0, 1, 2, 3, 4, 5, 6, 7, 8, 9]

/-! ### Per-file processing and the batch orchestrator (app.py 157-344) -/

/-- One uploaded multipart file part: its client filename and byte size. -/
structure FileUpload where
  filename : String
  byteSize : Nat
deriving DecidableEq, Repr

/-- The per-file result record built by `process_single_file`
(app.py lines 159-165); `output_path` is abstracted away (a successful
outcome's artifact exists until the response is built). -/
structure FileOutcome where
  filename : String
  success : Bool
  error : Option String
  file_size : Nat
deriving DecidableEq, Repr

/-- Encoder invocations observable from a pipeline run: the synchronous
path's full-quality WAV export (app.py line 187) and the size-bounded MP3
export with its byte budget (app.py line 136). -/
inductive ExportCall where
  | wavFullQuality
  | mp3SizeLimited (budget : Nat)
deriving DecidableEq, Repr

/-- `process_single_file` (app.py lines 157-215).  `pipeline f` models the
`try` body up to `cut_silence(input_path)` (save, decode, segment, assemble):
`Except.ok t` yields the processed track, `Except.error msg` a raised
exception.  `wavEncode t` models `processed_audio.export(output_path,
format="wav")` followed by the existence/size check: `Except.error` covers
both a raised export exception and the `'Processed file not found'` branch
(lines 198-199).  Every exception is caught by the enclosing `try/except`
(lines 201-208) and recorded in the outcome; the function always returns a
`FileOutcome`.  The second component is the trace of encoder invocations. -/
def process_single_file (pipeline : FileUpload → Except String Track)
    (wavEncode : Track → Except String Nat) (f : FileUpload) :
    FileOutcome × List ExportCall :=
  match pipeline f with
  | Except.error e =>
    ({ filename := f.filename, success := false, error := some e,
       file_size := 0 }, [])
  | Except.ok t =>
    match wavEncode t with
    | Except.error e =>
      ({ filename := f.filename, success := false, error := some e,
         file_size := 0 }, [ExportCall.wavFullQuality])
    | Except.ok size =>
      ({ filename := f.filename, success := true, error := none,
         file_size := size }, [ExportCall.wavFullQuality])

/-- The `for i, file in enumerate(files)` loop of `process_audio`
(app.py lines 248-257): every file is processed independently and its
outcome collected. -/
def processAllFiles (pipeline : FileUpload → Except String Track)
    (wavEncode : Track → Except String Nat) (files : List FileUpload) :
    List FileOutcome :=
  files.map fun f => (process_single_file pipeline wavEncode f).1

/-- Python `filename.rsplit('.', 1)[0]`: everything before the last dot, or
the whole string when it contains no dot. -/
def baseName (s : String) : String :=
  match s.toList.reverse.dropWhile (fun c => c ≠ '.') with
  | [] => s
  | _ :: rest => String.mk rest.reverse

/-- HTTP response shapes of the `POST /process-audio` handler (app.py lines
217-344).  `zipArchive` carries the archive entry names plus the
`processing_summary.json` per-file records `(filename, success, error)`
(the float `file_size_mb` field is omitted); `serverError` carries the
aggregate error and the per-file `details` list of `(filename, error)`
pairs. -/
inductive HttpResponse where
  | badRequest (error : String)
  | audioAttachment (attachmentFilename : String) (size : Nat)
  | zipArchive (entries : List String)
      (summary : List (String × Bool × Option String))
  | serverError (error : String) (details : List (String × Option String))
deriving DecidableEq, Repr

/-- HTTP status code of a response. -/
def statusOf : HttpResponse → Nat
  | HttpResponse.badRequest _ => 400
  | HttpResponse.audioAttachment _ _ => 200
  | HttpResponse.zipArchive _ _ => 200
  | HttpResponse.serverError _ _ => 500

/-- The `POST /process-audio` handler `process_audio` (app.py lines 217-344):
reject an empty request (line 223) and an all-empty-filename request
(line 241), process every remaining file, then shape the response: all
failed → 500 with per-file details (lines 260-266); exactly one file and it
succeeded → direct attachment (lines 269-285); otherwise → zip archive with
one `<base>_processed.wav` entry per successful file plus the summary
(lines 288-336).  The handler never consults the uploaded byte sizes.  The
`match` arm for an empty successful list inside the single-file branch is
unreachable (guarded by the all-failed check), mirroring the guarded
`successful_files[0]` subscript. -/
def process_audio (pipeline : FileUpload → Except String Track)
    (wavEncode : Track → Except String Nat)
    (requestFiles : List FileUpload) : HttpResponse :=
  if requestFiles.isEmpty then HttpResponse.badRequest "No files provided"
  else
    let files := requestFiles.filter fun f => f.filename ≠ ""
    if files.isEmpty then HttpResponse.badRequest "No valid files selected"
    else
      let results := processAllFiles pipeline wavEncode files
      let successful := results.filter fun r => r.success
      if successful.isEmpty then
        HttpResponse.serverError "No files processed successfully"
          ((results.filter fun r => !r.success).map fun r => (r.filename, r.error))
      else if files.length = 1 then
        match successful with
        | [] => HttpResponse.serverError "No files processed successfully" []
        | r :: _ =>
          HttpResponse.audioAttachment (baseName r.filename ++ "_processed.wav")
            r.file_size
      else
        HttpResponse.zipArchive
          (successful.map fun r => baseName r.filename ++ "_processed.wav")
          (results.map fun r => (r.filename, r.success, r.error))

/-- Pipeline fixture for witnesses: the decode/segment stage fails exactly
on the file named `bad.wav` and succeeds elsewhere. -/
def c4Pipeline : FileUpload → Except String Track := fun f =>
  if f.filename = "bad.wav" then Except.error "decode failed"
  else Except.ok [0, 1, 2]

/-- WAV-encode fixture for witnesses: always succeeds, 1000 bytes per sample. -/
def okWavEncode : Track → Except String Nat := fun t =>
  Except.ok (t.length * 1000)

/-- Two-file upload fixture for the C5 witness. -/
def twoFiles : List FileUpload := [⟨"a.wav", 100⟩, ⟨"b.mp3", 200⟩]

/-- Oversized upload fixture for the C8 counterexample: 60 MiB, above
`MAX_FILE_SIZE`. -/
def c8BigFile : FileUpload := ⟨"big.wav", 60 * 1024 * 1024⟩

/-! ### Background job path and the jobs table (app.py 26-27, 125-156, 346-398) -/

/-- Status values stored in a `jobs` record. -/
inductive JobStatus where
  | pending
  | processing
  | completed
  | failed
deriving DecidableEq, Repr

/-- `process_audio_background` (app.py lines 125-156): runs `cut_silence`
and then `export_mp3_with_size_limit(processed_audio, output_path)` with the
default 50 MiB budget; any failure marks the job failed.  `encodeAt t b`
models encoding track `t` at candidate bitrate `b`, `extEncode t` the 24 kbps
fallback.  The second component is the trace of encoder invocations. -/
def process_audio_background (pipeline : FileUpload → Except String Track)
    (encodeAt : Track → Nat → Option Nat) (extEncode : Track → Option Nat)
    (f : FileUpload) : JobStatus × List ExportCall :=
  match pipeline f with
  | Except.error _ => (JobStatus.failed, [])
  | Except.ok t =>
    match (export_mp3_with_size_limit (encodeAt t) (extEncode t) MAX_FILE_SIZE).1 with
    | ExportResult.failure =>
      (JobStatus.failed, [ExportCall.mp3SizeLimited MAX_FILE_SIZE])
    | _ => (JobStatus.completed, [ExportCall.mp3SizeLimited MAX_FILE_SIZE])

/-- One record of the module-level `jobs` dict (app.py line 27).
`hasOutputFile` abstracts `os.path.exists(job['output_path'])`. -/
structure Job where
  status : JobStatus
  hasOutputFile : Bool
deriving DecidableEq, Repr

/-- The `jobs` dict, as an association list from job id to record. -/
abbrev JobsTable := List (String × Job)

/-- Python `job_id in jobs` / `jobs[job_id]`. -/
def lookupJob (t : JobsTable) (id : String) : Option Job :=
  (t.find? fun p => p.1 = id).map Prod.snd

/-- Python `del jobs[job_id]`. -/
def removeJob (t : JobsTable) (id : String) : JobsTable :=
  t.filter fun p => p.1 ≠ id

/-- The `GET /job/<job_id>` handler `get_job_status` (app.py lines 346-390):
unknown id → 404; completed job → deliver and delete (200) when the output
file exists, else 500; failed job → report and delete (500); otherwise a
200 in-progress body.  Returns the status code and the updated table. -/
def get_job_status (t : JobsTable) (id : String) : Nat × JobsTable :=
  match lookupJob t id with
  | none => (404, t)
  | some job =>
    match job.status with
    | JobStatus.completed =>
      if job.hasOutputFile then (200, removeJob t id) else (500, t)
    | JobStatus.failed => (500, removeJob t id)
    | _ => (200, t)

/-- The `active_jobs` count of the `GET /health` handler (app.py line 397):
jobs whose status is `pending` or `processing`. -/
def active_jobs (t : JobsTable) : Nat :=
  (t.filter fun p =>
    p.2.status = JobStatus.pending ∨ p.2.status = JobStatus.processing).length

/-- The `GET /health` handler `health_check` (app.py lines 392-398):
status 200 and the `active_jobs` count; the table is not modified. -/
def health_check (t : JobsTable) : Nat × Nat := (200, active_jobs t)

/-- Policy parameter triple `(min_silence_len, silence_thresh, keep_silence)`. -/
structure PolicyParams where
  min_silence_len : Nat
  silence_thresh : Int
  keep_silence : Nat
deriving DecidableEq, Repr

/-- The parameters hardcoded in the `GET /` JSON body (app.py lines 408-412). -/
def homeReportedParams : PolicyParams :=
  { min_silence_len := 50, silence_thresh := -40, keep_silence := 33 }

/-- The default parameters of `cut_silence`'s signature (app.py line 32:
`min_silence_len=100, silence_thresh=-30, keep_silence=30`).  Both pipeline
call sites (lines 132 and 184) call `cut_silence(input_path)` with no
explicit parameters, so every pipeline invocation runs with these values. -/
def cutSilenceDefaults : PolicyParams :=
  { min_silence_len := 100, silence_thresh := -30, keep_silence := 30 }

/-- The `GET /` handler `home` (app.py lines 400-413): status 200 and the
reported parameter block. -/
def home : Nat × PolicyParams := (200, homeReportedParams)

/-- The four HTTP routes of the service, as far as the `jobs` table is
concerned.  `POST /process-audio` (app.py lines 217-344) neither reads nor
writes `jobs`; `process_audio_background` (lines 125-156), the only code
that inserts into `jobs`, is defined but called from no route and no other
code; so the only route that modifies the table is `GET /job/<job_id>`,
which can only delete entries. -/
inductive Route where
  | processAudio
  | jobStatus (id : String)
  | health
  | homePage

/-- Effect of one handled request on the `jobs` table. -/
def routeStep : Route → JobsTable → JobsTable
  | Route.processAudio, t => t
  | Route.jobStatus id, t => (get_job_status t id).2
  | Route.health, t => t
  | Route.homePage, t => t

/-- Reachable `jobs` tables: the module starts with `jobs = {}` (app.py
line 27) and each handled request transforms the table by `routeStep`. -/
inductive Reachable : JobsTable → Prop where
  | init : Reachable []
  | step (r : Route) {t : JobsTable} : Reachable t → Reachable (routeStep r t)

/-! ## Theorems -/

/-! ### Lemmas about the export loop -/

theorem exportLoop_fst_eq_none_iff (encode : Nat → Option Nat) (budget : Nat)
    (l : List Nat) :
    (exportLoop encode budget l).1 = none ↔ ∀ b ∈ l, fits encode budget b = false := by
  induction l with
  | nil => simp [exportLoop]
  | cons b rest ih =>
    simp only [exportLoop]
    cases hb : encode b with
    | none =>
      simp only [List.mem_cons]
      constructor
      · intro h b' hb'
        rcases hb' with rfl | hb'
        · simp [fits, hb]
        · exact (ih.mp h) b' hb'
      · intro h
        exact ih.mpr fun b' hb' => h b' (Or.inr hb')
    | some s =>
      by_cases hs : s ≤ budget
      · simp only [hs, if_pos]
        constructor
        · intro h; exact absurd h (by simp)
        · intro h
          have := h b (List.mem_cons_self b rest)
          simp [fits, hb, hs] at this
      · simp only [hs, if_neg, not_false_iff]
        simp only [List.mem_cons]
        constructor
        · intro h b' hb'
          rcases hb' with rfl | hb'
          · simp [fits, hb, hs]
          · exact (ih.mp h) b' hb'
        · intro h
          exact ih.mpr fun b' hb' => h b' (Or.inr hb')

theorem exportLoop_append_unfit (encode : Nat → Option Nat) (budget : Nat)
    (l₁ l₂ : List Nat) (h : ∀ b ∈ l₁, fits encode budget b = false) :
    exportLoop encode budget (l₁ ++ l₂) =
      ((exportLoop encode budget l₂).1,
        (exportLoop encode budget l₁).2 ++ (exportLoop encode budget l₂).2) := by
  induction l₁ with
  | nil => simp [exportLoop]
  | cons b rest ih =>
    have hb : fits encode budget b = false := h b (List.mem_cons_self b rest)
    have hrest : ∀ b' ∈ rest, fits encode budget b' = false :=
      fun b' hb' => h b' (List.mem_cons_of_mem b hb')
    simp only [List.cons_append, exportLoop]
    cases he : encode b with
    | none => simp [ih hrest]
    | some s =>
      have hs : ¬ s ≤ budget := by
        simp [fits, he] at hb; omega
      simp [hs, ih hrest]

theorem exportLoop_cons_fit (encode : Nat → Option Nat) (budget : Nat)
    (b s : Nat) (l : List Nat) (hb : encode b = some s) (hs : s ≤ budget) :
    exportLoop encode budget (b :: l) =
      (some (b, s), [ExportEvent.encoded b, ExportEvent.renamedToFinal b]) := by
  simp [exportLoop, hb, hs]

theorem exportLoop_deletedTemp (encode : Nat → Option Nat) (budget : Nat)
    (l : List Nat) (h : ∀ b ∈ l, fits encode budget b = false) :
    ∀ b ∈ l, ∀ s, encode b = some s → budget < s →
      ExportEvent.deletedTemp b ∈ (exportLoop encode budget l).2 := by
  induction l with
  | nil => simp
  | cons b rest ih =>
    intro b' hb' s hbs hlt
    have hrest : ∀ x ∈ rest, fits encode budget x = false :=
      fun x hx => h x (List.mem_cons_of_mem b hx)
    rcases List.mem_cons.mp hb' with rfl | hb'
    · simp only [exportLoop, hbs]
      have hs : ¬ s ≤ budget := by omega
      simp [hs]
    · have hmem := ih hrest b' hb' s hbs hlt
      simp only [exportLoop]
      cases he : encode b with
      | none => simpa using hmem
      | some s₀ =>
        have hb0 : fits encode budget b = false := h b (List.mem_cons_self b rest)
        have hs0 : ¬ s₀ ≤ budget := by
          simp [fits, he] at hb0; omega
        simp only [hs0, if_neg, not_false_iff]
        simpa using Or.inr hmem

theorem exportLoop_encodeCount_le (encode : Nat → Option Nat) (budget : Nat)
    (l : List Nat) : encodeCount (exportLoop encode budget l).2 ≤ l.length := by
  induction l with
  | nil => simp [exportLoop, encodeCount]
  | cons b rest ih =>
    simp only [exportLoop]
    cases he : encode b with
    | none =>
      simp only [encodeCount, List.filter, isEncode, List.length_cons]
      simpa [encodeCount] using Nat.succ_le_succ ih
    | some s =>
      by_cases hs : s ≤ budget
      · simp [hs, encodeCount, List.filter, isEncode]
      · simp only [hs, if_neg, not_false_iff]
        simp only [encodeCount, List.filter, isEncode, List.length_cons]
        simpa [encodeCount] using Nat.succ_le_succ ih

theorem exportLoop_no_extreme (encode : Nat → Option Nat) (budget : Nat)
    (l : List Nat) :
    ExportEvent.encodedExtreme ∉ (exportLoop encode budget l).2 := by
  induction l with
  | nil => simp [exportLoop]
  | cons b rest ih =>
    simp only [exportLoop]
    cases he : encode b with
    | none => simp [ih]
    | some s =>
      by_cases hs : s ≤ budget
      · simp [hs]
      · simp [hs, ih]

theorem exportLoop_encoded_head (encode : Nat → Option Nat) (budget : Nat)
    (b : Nat) (l : List Nat) :
    ExportEvent.encoded b ∈ (exportLoop encode budget (b :: l)).2 := by
  simp only [exportLoop]
  cases he : encode b with
  | none => simp
  | some s =>
    by_cases hs : s ≤ budget
    · simp [hs]
    · simp [hs]

theorem export_trace_mono (encode : Nat → Option Nat) (ext : Option Nat)
    (budget : Nat) (e : ExportEvent)
    (h : e ∈ (exportLoop encode budget bitrates).2) :
    e ∈ (export_mp3_with_size_limit encode ext budget).2 := by
  unfold export_mp3_with_size_limit
  rcases hr : (exportLoop encode budget bitrates).1 with _ | ⟨b, s⟩ <;>
    cases ext <;> simp_all

theorem encodeCount_append (t₁ t₂ : List ExportEvent) :
    encodeCount (t₁ ++ t₂) = encodeCount t₁ + encodeCount t₂ := by
  simp [encodeCount, List.filter_append]

theorem export_encodeCount_le (encode : Nat → Option Nat) (ext : Option Nat)
    (budget : Nat) :
    encodeCount (export_mp3_with_size_limit encode ext budget).2 ≤
      bitrates.length + 1 := by
  have hbase := exportLoop_encodeCount_le encode budget bitrates
  have h1 : encodeCount [ExportEvent.encodedExtreme] = 1 := rfl
  unfold export_mp3_with_size_limit
  rcases hr : (exportLoop encode budget bitrates).1 with _ | ⟨b, s⟩
  · cases ext
    · simp only [hr, encodeCount_append]
      omega
    · simp only [hr, encodeCount_append]
      omega
  · simp only [hr]
    omega

/-- C1: for every assembled track, `export_mp3_with_size_limit` tries the
candidate bitrates 256, 192, 160, 128, 96, 64, 32 kbps in exactly this
descending order and returns the first candidate whose encoded byte size is
at most the 50 MiB budget; every earlier attempt that exceeded the budget is
deleted immediately (a `deletedTemp` event), and the exporter never returns
a candidate other than the first one in the list that fits.  Here
`bitrates = pre ++ b :: post` with every candidate in `pre` failing to fit
and `b` fitting, so `b` is the first fitting candidate. -/
theorem c1_exporter_returns_first_fitting_bitrate
    (encode : Nat → Option Nat) (ext : Option Nat) (pre post : List Nat)
    (b s : Nat) (hsplit : bitrates = pre ++ b :: post)
    (hpre : ∀ x ∈ pre, fits encode MAX_FILE_SIZE x = false)
    (hb : encode b = some s) (hs : s ≤ MAX_FILE_SIZE) :
    bitrates = [256, 192, 160, 128, 96, 64, 32] ∧
    (export_mp3_with_size_limit encode ext MAX_FILE_SIZE).1 =
      ExportResult.atBitrate b s ∧
    (∀ x ∈ pre, ∀ sx, encode x = some sx → MAX_FILE_SIZE < sx →
      ExportEvent.deletedTemp x ∈
        (export_mp3_with_size_limit encode ext MAX_FILE_SIZE).2) := by
  have hloop : exportLoop encode MAX_FILE_SIZE bitrates =
      (some (b, s),
        (exportLoop encode MAX_FILE_SIZE pre).2 ++
          [ExportEvent.encoded b, ExportEvent.renamedToFinal b]) := by
    rw [hsplit, exportLoop_append_unfit encode MAX_FILE_SIZE pre (b :: post) hpre,
      exportLoop_cons_fit encode MAX_FILE_SIZE b s post hb hs]
  refine ⟨rfl, ?_, ?_⟩
  · unfold export_mp3_with_size_limit
    rw [hloop]
  · intro x hx sx hex hlt
    have hmem : ExportEvent.deletedTemp x ∈ (exportLoop encode MAX_FILE_SIZE pre).2 :=
      exportLoop_deletedTemp encode MAX_FILE_SIZE pre hpre x hx sx hex hlt
    unfold export_mp3_with_size_limit
    rw [hloop]
    simp [hmem]

theorem c1_exporter_returns_first_fitting_bitrate_witness :
    (export_mp3_with_size_limit c1Encode none MAX_FILE_SIZE).1 =
      ExportResult.atBitrate 160 48000000 :=
  (c1_exporter_returns_first_fitting_bitrate c1Encode none [256, 192]
    [128, 96, 64, 32] 160 48000000 rfl (by decide) rfl (by decide)).2.1

/-- C2: an encoding failure at one candidate bitrate does not abort the
search (the next lower bitrate is still attempted); if no listed candidate
fits the budget, exactly one extreme-compression encode is performed and its
result is returned unconditionally (for every size `s` it produced, even over
budget); at most `bitrates.length + 1 = 8` encode invocations occur; and the
exporter raises (`ExportResult.failure`) if and only if every listed
candidate fails to fit and the extreme-compression fallback also fails. -/
theorem c2_exporter_fallback_and_attempt_bound
    (encode : Nat → Option Nat) (ext : Option Nat) :
    (encodeCount (export_mp3_with_size_limit encode ext MAX_FILE_SIZE).2 ≤
        bitrates.length + 1 ∧ bitrates.length + 1 = 8) ∧
    (∀ pre b b₂ post, bitrates = pre ++ b :: b₂ :: post →
      (∀ x ∈ pre, fits encode MAX_FILE_SIZE x = false) → encode b = none →
      ExportEvent.encoded b₂ ∈
        (export_mp3_with_size_limit encode ext MAX_FILE_SIZE).2) ∧
    ((∀ x ∈ bitrates, fits encode MAX_FILE_SIZE x = false) →
      (export_mp3_with_size_limit encode ext MAX_FILE_SIZE).2.count
          ExportEvent.encodedExtreme = 1 ∧
      ∀ s, ext = some s →
        (export_mp3_with_size_limit encode ext MAX_FILE_SIZE).1 =
          ExportResult.extreme s) ∧
    ((export_mp3_with_size_limit encode ext MAX_FILE_SIZE).1 =
        ExportResult.failure ↔
      (∀ x ∈ bitrates, fits encode MAX_FILE_SIZE x = false) ∧ ext = none) := by
  refine ⟨⟨export_encodeCount_le encode ext MAX_FILE_SIZE, rfl⟩, ?_, ?_, ?_⟩
  · intro pre b b₂ post hsplit hpre hbnone
    have hpre' : ∀ x ∈ pre ++ [b], fits encode MAX_FILE_SIZE x = false := by
      intro x hx
      rcases List.mem_append.mp hx with hx | hx
      · exact hpre x hx
      · rcases List.mem_singleton.mp hx with rfl
        simp [fits, hbnone]
    have hmem : ExportEvent.encoded b₂ ∈
        (exportLoop encode MAX_FILE_SIZE bitrates).2 := by
      have hsplit' : bitrates = (pre ++ [b]) ++ b₂ :: post := by
        simpa using hsplit
      rw [hsplit', exportLoop_append_unfit encode MAX_FILE_SIZE (pre ++ [b])
        (b₂ :: post) hpre']
      simp only [List.mem_append]
      exact Or.inr (exportLoop_encoded_head encode MAX_FILE_SIZE b₂ post)
    exact export_trace_mono encode ext MAX_FILE_SIZE _ hmem
  · intro hall
    have hnone : (exportLoop encode MAX_FILE_SIZE bitrates).1 = none :=
      (exportLoop_fst_eq_none_iff encode MAX_FILE_SIZE bitrates).mpr hall
    have hcount : (exportLoop encode MAX_FILE_SIZE bitrates).2.count
        ExportEvent.encodedExtreme = 0 :=
      List.count_eq_zero.mpr (exportLoop_no_extreme encode MAX_FILE_SIZE bitrates)
    constructor
    · unfold export_mp3_with_size_limit
      cases ext <;> simp [hnone, List.count_append, hcount]
    · intro s hexts
      subst hexts
      unfold export_mp3_with_size_limit
      simp [hnone]
  · constructor
    · intro hfail
      unfold export_mp3_with_size_limit at hfail
      rcases hr : (exportLoop encode MAX_FILE_SIZE bitrates).1 with _ | ⟨b, s⟩ <;>
        cases hext : ext <;> simp [hr, hext] at hfail
      exact ⟨(exportLoop_fst_eq_none_iff encode MAX_FILE_SIZE bitrates).mp hr, rfl⟩
    · rintro ⟨hall, rfl⟩
      have hnone : (exportLoop encode MAX_FILE_SIZE bitrates).1 = none :=
        (exportLoop_fst_eq_none_iff encode MAX_FILE_SIZE bitrates).mpr hall
      unfold export_mp3_with_size_limit
      simp [hnone]

theorem c2_exporter_fallback_and_attempt_bound_witness :
    (export_mp3_with_size_limit (fun _ => none) none MAX_FILE_SIZE).1 =
      ExportResult.failure :=
  (c2_exporter_fallback_and_attempt_bound (fun _ => none) none).2.2.2.mpr
    ⟨by decide, rfl⟩

/-! ### Segmentation and assembly lemmas -/

theorem foldl_append_eq_flatten (l : List Track) (init : Track) :
    l.foldl (fun acc c => acc ++ c) init = init ++ l.flatten := by
  induction l generalizing init with
  | nil => simp
  | cons c rest ih => simp [List.foldl_cons, ih, List.append_assoc]

theorem cut_silence_of_ne_nil (audio : Track) (chunks : List Track)
    (h : chunks ≠ []) : cut_silence audio chunks = chunks.flatten := by
  simp [cut_silence, List.isEmpty_iff, h, foldl_append_eq_flatten]

theorem slice_split (audio : Track) (s m e : Nat) (h₁ : s ≤ m) (h₂ : m ≤ e) :
    slice audio s e = slice audio s m ++ slice audio m e := by
  unfold slice
  have he : e - s = (m - s) + (e - m) := by omega
  rw [he, List.take_add, List.drop_drop]
  have hm : s + (m - s) = m := by omega
  rw [hm]

theorem slice_ne_nil (audio : Track) (s e : Nat) (h₁ : s < e)
    (h₂ : s < audio.length) : slice audio s e ≠ [] := by
  unfold slice
  intro hnil
  have := congrArg List.length hnil
  simp [List.length_take, List.length_drop] at this
  omega

/-- C3: for every input track for which silence splitting produces an empty
list of non-silent chunks (in particular a track entirely below the silence
threshold, whose NonSilentRange list is empty), `cut_silence` returns the
original decoded track unchanged, never an empty or zero-length output for a
non-empty input; this is a fallback return, not an error. -/
theorem c3_empty_chunks_returns_original (audio : Track) (keep : Nat)
    (ranges : List (Nat × Nat))
    (h : split_on_silence audio keep ranges = []) :
    cut_silence audio (split_on_silence audio keep ranges) = audio ∧
    split_on_silence audio keep [] = [] ∧
    (audio ≠ [] → cut_silence audio (split_on_silence audio keep ranges) ≠ []) := by
  refine ⟨?_, rfl, ?_⟩
  · rw [h]
    simp [cut_silence]
  · intro hne
    rw [h]
    simpa [cut_silence] using hne

theorem c3_empty_chunks_returns_original_witness :
    cut_silence [1, 2, 3] (split_on_silence [1, 2, 3] 30 []) = [1, 2, 3] :=
  (c3_empty_chunks_returns_original [1, 2, 3] 30 [] rfl).1

/-- C6: when two adjacent non-silent ranges `(a₁, b₁)` and `(a₂, b₂)`, after
expansion by `keep_silence` on each side, overlap (the padded start of the
second is before the padded end of the first), the segmentation does not
merge the two padded ranges: each is extracted independently in range order,
so the overlap region — which contains the padding silence — is emitted on
both sides, appearing once at the end of the first chunk and again at the
start of the second, hence duplicated in the concatenated output. -/
theorem c6_overlapping_padded_ranges_duplicate_padding
    (audio : Track) (keep : Nat) (pre post : List (Nat × Nat))
    (a₁ b₁ a₂ b₂ : Nat)
    (horder : a₁ - keep ≤ a₂ - keep)
    (hov : a₂ - keep < min (b₁ + keep) audio.length)
    (hend : min (b₁ + keep) audio.length ≤ min (b₂ + keep) audio.length) :
    split_on_silence audio keep (pre ++ [(a₁, b₁), (a₂, b₂)] ++ post) =
      split_on_silence audio keep pre ++
        [slice audio (a₁ - keep) (a₂ - keep) ++
           slice audio (a₂ - keep) (min (b₁ + keep) audio.length),
         slice audio (a₂ - keep) (min (b₁ + keep) audio.length) ++
           slice audio (min (b₁ + keep) audio.length)
             (min (b₂ + keep) audio.length)] ++
        split_on_silence audio keep post ∧
    slice audio (a₂ - keep) (min (b₁ + keep) audio.length) ≠ [] ∧
    cut_silence audio
        (split_on_silence audio keep (pre ++ [(a₁, b₁), (a₂, b₂)] ++ post)) =
      (split_on_silence audio keep pre).flatten ++
        (slice audio (a₁ - keep) (a₂ - keep) ++
          slice audio (a₂ - keep) (min (b₁ + keep) audio.length)) ++
        (slice audio (a₂ - keep) (min (b₁ + keep) audio.length) ++
          slice audio (min (b₁ + keep) audio.length)
            (min (b₂ + keep) audio.length)) ++
        (split_on_silence audio keep post).flatten := by
  have hchunk₁ : slice audio (a₁ - keep) (min (b₁ + keep) audio.length) =
      slice audio (a₁ - keep) (a₂ - keep) ++
        slice audio (a₂ - keep) (min (b₁ + keep) audio.length) :=
    slice_split audio (a₁ - keep) (a₂ - keep) (min (b₁ + keep) audio.length)
      horder (Nat.le_of_lt hov)
  have hchunk₂ : slice audio (a₂ - keep) (min (b₂ + keep) audio.length) =
      slice audio (a₂ - keep) (min (b₁ + keep) audio.length) ++
        slice audio (min (b₁ + keep) audio.length)
          (min (b₂ + keep) audio.length) :=
    slice_split audio (a₂ - keep) (min (b₁ + keep) audio.length)
      (min (b₂ + keep) audio.length) (Nat.le_of_lt hov) hend
  have hsplit : split_on_silence audio keep (pre ++ [(a₁, b₁), (a₂, b₂)] ++ post) =
      split_on_silence audio keep pre ++
        [slice audio (a₁ - keep) (a₂ - keep) ++
           slice audio (a₂ - keep) (min (b₁ + keep) audio.length),
         slice audio (a₂ - keep) (min (b₁ + keep) audio.length) ++
           slice audio (min (b₁ + keep) audio.length)
             (min (b₂ + keep) audio.length)] ++
        split_on_silence audio keep post := by
    unfold split_on_silence
    rw [List.map_append, List.map_append]
    simp only [List.map_cons, List.map_nil]
    rw [← hchunk₁, ← hchunk₂]
  have hne : slice audio (a₂ - keep) (min (b₁ + keep) audio.length) ≠ [] := by
    refine slice_ne_nil audio _ _ hov ?_
    have : min (b₁ + keep) audio.length ≤ audio.length := Nat.min_le_right _ _
    omega
  refine ⟨hsplit, hne, ?_⟩
  rw [hsplit]
  have hnonempty : split_on_silence audio keep pre ++
      [slice audio (a₁ - keep) (a₂ - keep) ++
         slice audio (a₂ - keep) (min (b₁ + keep) audio.length),
       slice audio (a₂ - keep) (min (b₁ + keep) audio.length) ++
         slice audio (min (b₁ + keep) audio.length)
           (min (b₂ + keep) audio.length)] ++
      split_on_silence audio keep post ≠ [] := by
    simp
  rw [cut_silence_of_ne_nil audio _ hnonempty]
  simp [List.flatten_append, List.append_assoc]

theorem c6_overlapping_padded_ranges_duplicate_padding_witness :
    slice c6Audio (4 - 2) (min (3 + 2) c6Audio.length) ≠ [] :=
  (c6_overlapping_padded_ranges_duplicate_padding c6Audio 2 [] [] 1 3 4 6
    (by decide) (by decide) (by decide)).2.1

/-! ### Orchestrator theorems -/

theorem process_single_file_pipeline_error
    (pipeline : FileUpload → Except String Track)
    (wavEncode : Track → Except String Nat) (f : FileUpload) (msg : String)
    (hp : pipeline f = Except.error msg) :
    process_single_file pipeline wavEncode f =
      ({ filename := f.filename, success := false, error := some msg,
         file_size := 0 }, []) := by
  unfold process_single_file
  simp only [hp]

theorem process_single_file_wav_error
    (pipeline : FileUpload → Except String Track)
    (wavEncode : Track → Except String Nat) (f : FileUpload) (t : Track)
    (msg : String) (hp : pipeline f = Except.ok t)
    (hw : wavEncode t = Except.error msg) :
    process_single_file pipeline wavEncode f =
      ({ filename := f.filename, success := false, error := some msg,
         file_size := 0 }, [ExportCall.wavFullQuality]) := by
  unfold process_single_file
  simp only [hp, hw]

theorem process_single_file_ok
    (pipeline : FileUpload → Except String Track)
    (wavEncode : Track → Except String Nat) (f : FileUpload) (t : Track)
    (size : Nat) (hp : pipeline f = Except.ok t)
    (hw : wavEncode t = Except.ok size) :
    process_single_file pipeline wavEncode f =
      ({ filename := f.filename, success := true, error := none,
         file_size := size }, [ExportCall.wavFullQuality]) := by
  unfold process_single_file
  simp only [hp, hw]

theorem process_single_file_filename (pipeline : FileUpload → Except String Track)
    (wavEncode : Track → Except String Nat) (f : FileUpload) :
    ((process_single_file pipeline wavEncode f).1).filename = f.filename := by
  cases hp : pipeline f with
  | error e => rw [process_single_file_pipeline_error pipeline wavEncode f e hp]
  | ok t =>
    cases hw : wavEncode t with
    | error e => rw [process_single_file_wav_error pipeline wavEncode f t e hp hw]
    | ok size => rw [process_single_file_ok pipeline wavEncode f t size hp hw]

/-- C4: for every batch of files, an exception raised while processing one
file (`pipeline f = Except.error msg`) is captured as that file's outcome
record — success flag `false`, error detail present (`some msg`) — and never
propagates out of the orchestrator: `processAllFiles` is a total function
into outcome records, and the remaining files' outcomes are exactly those of
processing them on their own, unaffected by the failure. -/
theorem c4_per_file_failure_is_contained
    (pipeline : FileUpload → Except String Track)
    (wavEncode : Track → Except String Nat)
    (pre post : List FileUpload) (f : FileUpload) (msg : String)
    (hf : pipeline f = Except.error msg) :
    processAllFiles pipeline wavEncode (pre ++ f :: post) =
      processAllFiles pipeline wavEncode pre ++
        ({ filename := f.filename, success := false, error := some msg,
           file_size := 0 } : FileOutcome) ::
        processAllFiles pipeline wavEncode post ∧
    ((process_single_file pipeline wavEncode f).1).success = false ∧
    ((process_single_file pipeline wavEncode f).1).error = some msg ∧
    ((process_single_file pipeline wavEncode f).1).error ≠ none := by
  have hmid : (process_single_file pipeline wavEncode f).1 =
      { filename := f.filename, success := false, error := some msg,
        file_size := 0 } := by
    unfold process_single_file
    rw [hf]
  refine ⟨?_, ?_, ?_, ?_⟩
  · unfold processAllFiles
    rw [List.map_append, List.map_cons, hmid]
  · rw [hmid]
  · rw [hmid]
  · rw [hmid]
    simp

theorem c4_per_file_failure_is_contained_witness :
    processAllFiles c4Pipeline okWavEncode
        ([⟨"a.wav", 100⟩] ++ (⟨"bad.wav", 50⟩ : FileUpload) :: [⟨"b.mp3", 200⟩]) =
      processAllFiles c4Pipeline okWavEncode [⟨"a.wav", 100⟩] ++
        ({ filename := "bad.wav", success := false, error := some "decode failed",
           file_size := 0 } : FileOutcome) ::
        processAllFiles c4Pipeline okWavEncode [⟨"b.mp3", 200⟩] :=
  (c4_per_file_failure_is_contained c4Pipeline okWavEncode
    [⟨"a.wav", 100⟩] [⟨"b.mp3", 200⟩] ⟨"bad.wav", 50⟩ "decode failed" rfl).1

/-- C5: for every `POST /process-audio` request with at least one file, all
filenames non-empty: if every file fails, the response is a 500 error whose
`details` list one `(filename, error)` pair per file (all of them failed);
if exactly one file was uploaded and it succeeded, the response is a direct
audio attachment named `<base>_processed.wav` (no archive); if more than one
file was uploaded and at least one succeeded, the response is a 200 zip
archive with one `<base>_processed.wav` entry per successful file plus a
summary listing every file's outcome. -/
theorem c5_response_shaping (pipeline : FileUpload → Except String Track)
    (wavEncode : Track → Except String Nat) (files : List FileUpload)
    (hne : files ≠ []) (hvalid : ∀ f ∈ files, f.filename ≠ "") :
    ((processAllFiles pipeline wavEncode files).filter (fun r => r.success) = [] →
      process_audio pipeline wavEncode files =
        HttpResponse.serverError "No files processed successfully"
          ((processAllFiles pipeline wavEncode files).map fun r =>
            (r.filename, r.error)) ∧
      ((processAllFiles pipeline wavEncode files).map fun r =>
        (r.filename, r.error)).length = files.length) ∧
    (∀ f, files = [f] →
      ((process_single_file pipeline wavEncode f).1).success = true →
      process_audio pipeline wavEncode files =
        HttpResponse.audioAttachment (baseName f.filename ++ "_processed.wav")
          ((process_single_file pipeline wavEncode f).1).file_size) ∧
    (1 < files.length →
      (processAllFiles pipeline wavEncode files).filter (fun r => r.success) ≠ [] →
      process_audio pipeline wavEncode files =
        HttpResponse.zipArchive
          (((processAllFiles pipeline wavEncode files).filter
              (fun r => r.success)).map fun r =>
            baseName r.filename ++ "_processed.wav")
          ((processAllFiles pipeline wavEncode files).map fun r =>
            (r.filename, r.success, r.error)) ∧
      ((processAllFiles pipeline wavEncode files).map fun r =>
        (r.filename, r.success, r.error)).length = files.length) := by
  have hempty : files.isEmpty = false := by simp [hne]
  have hfilter : (files.filter fun f => f.filename ≠ "") = files :=
    List.filter_eq_self.mpr (by intro a ha; simpa using hvalid a ha)
  refine ⟨?_, ?_, ?_⟩
  · intro hfail
    have hallfail : ∀ r ∈ processAllFiles pipeline wavEncode files,
        r.success = false := by
      intro r hr
      have := List.filter_eq_nil_iff.mp hfail r hr
      simpa using this
    have hnotsucc : ((processAllFiles pipeline wavEncode files).filter
        fun r => !r.success) = processAllFiles pipeline wavEncode files :=
      List.filter_eq_self.mpr (by intro r hr; simp [hallfail r hr])
    refine ⟨?_, by simp [processAllFiles]⟩
    simp only [process_audio, hempty, Bool.false_eq_true, if_false, hfilter,
      hfail, List.isEmpty_nil, if_true]
    rw [hnotsucc]
  · rintro f rfl hsucc
    have hf1 : f.filename ≠ "" := hvalid f (by simp)
    simp [process_audio, processAllFiles, hf1, hsucc,
      process_single_file_filename]
  · intro hlen hsome
    have hlen1 : ¬ files.length = 1 := by omega
    have hsomeEmpty : ((processAllFiles pipeline wavEncode files).filter
        (fun r => r.success)).isEmpty = false := by simp [hsome]
    refine ⟨?_, by simp [processAllFiles]⟩
    simp only [process_audio, hempty, Bool.false_eq_true, if_false, hfilter,
      hsomeEmpty, hlen1]

theorem c5_response_shaping_witness :
    process_audio c4Pipeline okWavEncode twoFiles =
      HttpResponse.zipArchive
        (((processAllFiles c4Pipeline okWavEncode twoFiles).filter
            (fun r => r.success)).map fun r =>
          baseName r.filename ++ "_processed.wav")
        ((processAllFiles c4Pipeline okWavEncode twoFiles).map fun r =>
          (r.filename, r.success, r.error)) :=
  ((c5_response_shaping c4Pipeline okWavEncode twoFiles (by decide)
    (by decide)).2.2 (by decide) (by decide)).1

/-- C7 counterexample: the `GET /` body reports
`min_silence_len = 50, silence_thresh = -40, keep_silence = 33`, but the
defaults every pipeline invocation actually runs with (the signature defaults
of `cut_silence`, used by both parameterless call sites) are
`min_silence_len = 100, silence_thresh = -30, keep_silence = 30`; the
reported parameters are not the ones in effect. -/
theorem c7_counterexample_home_params_differ :
    home.1 = 200 ∧ home.2 ≠ cutSilenceDefaults ∧
    home.2.min_silence_len = 50 ∧ cutSilenceDefaults.min_silence_len = 100 ∧
    home.2.silence_thresh = -40 ∧ cutSilenceDefaults.silence_thresh = -30 ∧
    home.2.keep_silence = 33 ∧ cutSilenceDefaults.keep_silence = 30 := by
  refine ⟨rfl, by decide, rfl, rfl, rfl, rfl, rfl, rfl⟩

/-- C7 amended: `GET /` returns a 200 JSON body reporting the fixed values
`min_silence_len = 50, silence_thresh = -40, keep_silence = 33`, and these
differ from the default policy parameters the processing pipeline actually
uses (`min_silence_len = 100, silence_thresh = -30, keep_silence = 30`). -/
theorem c7_amended_home_reports_stale_params :
    home = (200, homeReportedParams) ∧
    homeReportedParams =
      { min_silence_len := 50, silence_thresh := -40, keep_silence := 33 } ∧
    cutSilenceDefaults =
      { min_silence_len := 100, silence_thresh := -30, keep_silence := 30 } ∧
    homeReportedParams ≠ cutSilenceDefaults := by
  refine ⟨rfl, rfl, rfl, by decide⟩

/-- C8 counterexample: a single 60 MiB upload — above the 50 MiB
`MAX_FILE_SIZE` — is fully processed and answered with status 200 (the
processed attachment), not 413: the handler never checks the uploaded byte
size and `MAX_FILE_SIZE` is used only as the MP3 exporter's byte budget. -/
theorem c8_counterexample_oversized_upload_not_rejected :
    MAX_FILE_SIZE < c8BigFile.byteSize ∧
    process_audio c4Pipeline okWavEncode [c8BigFile] =
      HttpResponse.audioAttachment "big_processed.wav" 3000 ∧
    statusOf (process_audio c4Pipeline okWavEncode [c8BigFile]) = 200 ∧
    ¬ statusOf (process_audio c4Pipeline okWavEncode [c8BigFile]) = 413 := by
  refine ⟨by decide, by decide, by decide, by decide⟩

/-- C8 amended: the service performs no upload-size check: `POST
/process-audio` never responds with status 413 for any request (its only
statuses are 200, 400 and 500); oversized uploads are processed like any
other, and `MAX_FILE_SIZE` constrains only the size-bounded MP3 exporter. -/
theorem c8_amended_no_upload_size_check
    (pipeline : FileUpload → Except String Track)
    (wavEncode : Track → Except String Nat) (files : List FileUpload) :
    statusOf (process_audio pipeline wavEncode files) ≠ 413 ∧
    (statusOf (process_audio pipeline wavEncode files) = 200 ∨
     statusOf (process_audio pipeline wavEncode files) = 400 ∨
     statusOf (process_audio pipeline wavEncode files) = 500) := by
  cases h : process_audio pipeline wavEncode files <;> simp [statusOf]

theorem c8_amended_no_upload_size_check_witness :
    statusOf (process_audio c4Pipeline okWavEncode [c8BigFile]) ≠ 413 :=
  (c8_amended_no_upload_size_check c4Pipeline okWavEncode [c8BigFile]).1

/-- C9: the synchronous per-file path (`process_single_file`) exports the
processed audio as full-quality WAV only: its trace never contains a
size-bounded MP3 export at any budget, and on success the outcome's size is
exactly whatever the WAV encoder produced — for every size, with no 50 MiB
constraint.  The size-bounded exporter is reached exactly from the
background job path (`process_audio_background`), whose trace contains the
`MAX_FILE_SIZE`-budgeted MP3 export whenever decoding succeeded. -/
theorem c9_sync_path_never_uses_size_bounded_exporter
    (pipeline : FileUpload → Except String Track)
    (wavEncode : Track → Except String Nat)
    (encodeAt : Track → Nat → Option Nat) (extEncode : Track → Option Nat)
    (f : FileUpload) :
    (∀ b, ExportCall.mp3SizeLimited b ∉
      (process_single_file pipeline wavEncode f).2) ∧
    (∀ c ∈ (process_single_file pipeline wavEncode f).2,
      c = ExportCall.wavFullQuality) ∧
    (∀ t size, pipeline f = Except.ok t → wavEncode t = Except.ok size →
      ((process_single_file pipeline wavEncode f).1).success = true ∧
      ((process_single_file pipeline wavEncode f).1).file_size = size) ∧
    (∀ t, pipeline f = Except.ok t →
      ExportCall.mp3SizeLimited MAX_FILE_SIZE ∈
        (process_audio_background pipeline encodeAt extEncode f).2) := by
  refine ⟨?_, ?_, ?_, ?_⟩
  · intro b
    cases hp : pipeline f with
    | error e =>
      rw [process_single_file_pipeline_error pipeline wavEncode f e hp]
      simp
    | ok t =>
      cases hw : wavEncode t with
      | error e =>
        rw [process_single_file_wav_error pipeline wavEncode f t e hp hw]
        simp
      | ok size =>
        rw [process_single_file_ok pipeline wavEncode f t size hp hw]
        simp
  · intro c hc
    cases hp : pipeline f with
    | error e =>
      rw [process_single_file_pipeline_error pipeline wavEncode f e hp] at hc
      simp at hc
    | ok t =>
      cases hw : wavEncode t with
      | error e =>
        rw [process_single_file_wav_error pipeline wavEncode f t e hp hw] at hc
        simpa using hc
      | ok size =>
        rw [process_single_file_ok pipeline wavEncode f t size hp hw] at hc
        simpa using hc
  · intro t size hp hw
    rw [process_single_file_ok pipeline wavEncode f t size hp hw]
    exact ⟨rfl, rfl⟩
  · intro t hp
    unfold process_audio_background
    simp only [hp]
    cases hres : (export_mp3_with_size_limit (encodeAt t) (extEncode t)
        MAX_FILE_SIZE).1 <;> simp [hres]

theorem c9_sync_path_never_uses_size_bounded_exporter_witness :
    ((process_single_file c4Pipeline okWavEncode ⟨"a.wav", 100⟩).1).success = true ∧
    ((process_single_file c4Pipeline okWavEncode ⟨"a.wav", 100⟩).1).file_size = 3000 :=
  (c9_sync_path_never_uses_size_bounded_exporter c4Pipeline okWavEncode
    (fun _ _ => none) (fun _ => none) ⟨"a.wav", 100⟩).2.2.1 [0, 1, 2] 3000 rfl rfl

/-- C10: in every reachable state of the service the `jobs` table is empty —
no HTTP route ever creates a job or invokes the background processor — so
`GET /job/<job_id>` returns 404 (leaving the table unchanged) for every job
id, and `GET /health` always reports `active_jobs = 0`. -/
theorem c10_jobs_table_always_empty (t : JobsTable) (h : Reachable t) :
    t = [] ∧ (∀ id, get_job_status t id = (404, t)) ∧
    active_jobs t = 0 ∧ health_check t = (200, 0) := by
  have ht : t = [] := by
    induction h with
    | init => rfl
    | step r h ih =>
      cases r with
      | processAudio => exact ih
      | jobStatus id => rw [ih]; rfl
      | health => exact ih
      | homePage => exact ih
  subst ht
  exact ⟨rfl, fun id => rfl, rfl, rfl⟩

theorem c10_jobs_table_always_empty_witness :
    ([] : JobsTable) = [] ∧
    (∀ id, get_job_status ([] : JobsTable) id = (404, [])) ∧
    active_jobs [] = 0 ∧ health_check [] = (200, 0) :=
  c10_jobs_table_always_empty [] Reachable.init

end SilenceCutter
